import Mathlib

/-!
Verification of the scientist library core (experiment orchestrator,
observation capture, result model, comparators) against its specification.

The embedding models behaviors as their outcomes (`Outcome`), exceptions as
a kind plus message (Python compares exception types, i.e. kinds), and the
effects of a run as an explicit event trace (`Event`): behavior invocations,
pre-run hook invocations, publishes to the sink, and cleanup invocations.
Wall-clock and CPU readings are abstracted as inputs to `observe` (no
property under verification concerns actual clock values).
-/

namespace Scientist

/-- An exception value: `kind` models the Python exception type (the code
compares exceptions with `type(a) == type(b)`), `msg` its payload. -/
structure Exc where
  kind : String
  msg : String
deriving DecidableEq, Repr

/-- The outcome of calling a zero-argument behavior once: either a returned
value or a raised exception. -/
inductive Outcome (α : Type) where
  | ok : α → Outcome α
  | exn : Exc → Outcome α
deriving DecidableEq, Repr

/-- Observation dataclass from observation.py: name, optional value,
optional exception, and the two timing fields. -/
structure Observation (α : Type) where
  name : String
  value : Option α
  exception : Option Exc
  duration_seconds : Nat
  cpu_time_seconds : Nat
deriving DecidableEq, Repr

/-- `Observation.raised` property: whether the behavior raised. -/
def Observation.raised {α : Type} (o : Observation α) : Bool :=
  o.exception.isSome

/-- Result dataclass from result.py. -/
structure Result (α : Type) where
  experiment_name : String
  control : Observation α
  candidate : Observation α
  matched : Bool
  ignored : Bool
deriving DecidableEq, Repr

/-- `Result.mismatched` property. -/
def Result.mismatched {α : Type} (r : Result α) : Bool :=
  !r.matched

/-- `Result.ignored_mismatch` property. -/
def Result.ignored_mismatch {α : Type} (r : Result α) : Bool :=
  r.mismatched && r.ignored

/-- `Result.unexpected_mismatch` property. -/
def Result.unexpected_mismatch {α : Type} (r : Result α) : Bool :=
  r.mismatched && !r.ignored

/-- Events recording the externally visible effects of a run. -/
inductive Event (α : Type) where
  | hookInvoked : Nat → Event α
  | invoked : String → Event α
  | published : Result α → Event α
  | cleanupInvoked : Event α
deriving DecidableEq, Repr

/-- `observe` from observation.py: calls the behavior exactly once (the one
`Event.invoked` emitted), catching any raise (Python catches BaseException,
so every `Outcome.exn` is captured); the Lean function is total, mirroring
that the capture routine itself never raises. `dur`/`cpu` stand for the
clock differences measured around the call. -/
def observe {α : Type} (name : String) (behavior : Outcome α) (dur cpu : Nat) :
    List (Event α) × Observation α :=
  match behavior with
  | Outcome.ok v =>
      ([Event.invoked name],
       { name := name, value := some v, exception := none,
         duration_seconds := dur, cpu_time_seconds := cpu })
  | Outcome.exn e =>
      ([Event.invoked name],
       { name := name, value := none, exception := some e,
         duration_seconds := dur, cpu_time_seconds := cpu })

/-- `percent_difference_comparator` from comparators.py, over exact
rationals (idealized numerics for Python floats). -/
def percent_difference_comparator (threshold : ℚ) : ℚ → ℚ → Bool :=
  fun control candidate =>
    if control = 0 ∧ candidate = 0 then true
    else if control = 0 ∨ candidate = 0 then false
    else decide (|control - candidate| / |control| ≤ threshold)

/-- Experiment builder state from experiment.py. Behaviors are modelled by
their outcomes, hooks by the exception they raise (`none` = normal return),
the cleanup action by `some` of the exception it raises (`none` = unset),
the gate by the boolean the predicate returns when called (`none` = no gate
installed), and the publisher by the exception `publish` raises per result. -/
structure Experiment (α : Type) where
  name : String
  control : Option (Outcome α)
  candidate : Option (Outcome α)
  comparator : α → α → Bool
  publisher : Option (Result α → Option Exc)
  run_if_fn : Option Bool
  enabled : Option Bool
  ignore_filters : List (Result α → Bool)
  before_run_hooks : List (Option Exc)
  clean_fn : Option (Option Exc)
  raise_on_mismatches : Bool

/-- Ambient ContextVar defaults from context.py. -/
structure Defaults (α : Type) where
  publisher : Option (Result α → Option Exc)
  enabled : Bool

/-- `NoopPublisher`: publish does nothing and raises nothing. -/
def NoopPublisher (α : Type) : Result α → Option Exc :=
  fun _ => none

/-- `Experiment._is_enabled`: explicit flag wins, else the ambient default. -/
def is_enabled {α : Type} (e : Experiment α) (d : Defaults α) : Bool :=
  match e.enabled with
  | some b => b
  | none => d.enabled

/-- `Experiment._get_publisher`: `self._publisher or get_default_publisher()
or NoopPublisher()` (first non-None wins). -/
def get_publisher {α : Type} (e : Experiment α) (d : Defaults α) :
    Result α → Option Exc :=
  match e.publisher with
  | some p => p
  | none =>
    match d.publisher with
    | some p => p
    | none => NoopPublisher α

/-- Failure modes of `run`: `valueError` for the missing-behavior
configuration check, `mismatchError` for ExperimentMismatchError (carrying
the full Result), `raised` for a user exception propagating verbatim (a
pre-run hook's raise or the control observation's re-raised exception). -/
inductive RunError (α : Type) where
  | valueError : String → RunError α
  | mismatchError : Result α → RunError α
  | raised : Exc → RunError α
deriving DecidableEq, Repr

/-- Whether the gate check sends the run down the control-only path:
`if self._run_if_fn and not self._run_if_fn()`. -/
def gate_blocks {α : Type} (e : Experiment α) : Bool :=
  match e.run_if_fn with
  | some g => !g
  | none => false

/-- `Experiment._run_control_only`: require the control, then call it
directly (no Observation, no comparison, no publish); its raise propagates. -/
def run_control_only {α : Type} (e : Experiment α) :
    List (Event α) × Except (RunError α) α :=
  match e.control with
  | none => ([], Except.error (RunError.valueError "Control behavior not set"))
  | some cb =>
    match cb with
    | Outcome.ok v => ([Event.invoked "control"], Except.ok v)
    | Outcome.exn ex => ([Event.invoked "control"], Except.error (RunError.raised ex))

/-- `Experiment._compare_observations`: both raised compares exception
kinds (`type(a) == type(b)`); neither raised delegates to the comparator;
mixed never matches. The inner wildcard arms are unreachable for
observations built by `observe` (there, `raised` decides which field is
populated; Python would hand the comparator a None there). -/
def compare_observations {α : Type} (e : Experiment α)
    (control candidate : Observation α) : Bool :=
  if control.raised && candidate.raised then
    match control.exception, candidate.exception with
    | some e1, some e2 => e1.kind == e2.kind
    | _, _ => false
  else if !control.raised && !candidate.raised then
    match control.value, candidate.value with
    | some v1, some v2 => e.comparator v1 v2
    | _, _ => false
  else
    false

/-- The first Result constructed inside `Experiment._build_result`, before
the ignore filters run (`ignored=False`). -/
def pre_result {α : Type} (e : Experiment α)
    (control_obs candidate_obs : Observation α) : Result α :=
  { experiment_name := e.name, control := control_obs, candidate := candidate_obs,
    matched := compare_observations e control_obs candidate_obs, ignored := false }

/-- `Experiment._build_result`: build the preliminary Result, evaluate the
ignore filters on it in order stopping at the first hit (for pure filters
the break-on-first-true loop computes `List.any`), and rebuild with
`ignored=True` when one hit. -/
def build_result {α : Type} (e : Experiment α)
    (control_obs candidate_obs : Observation α) : Result α :=
  let result := pre_result e control_obs candidate_obs
  let ignored := e.ignore_filters.any (fun f => f result)
  if ignored then { result with ignored := true } else result

/-- `Experiment._finish`: publish (the sink's exception, if any, is caught
and discarded — hence the unused binding), then raise on an unexpected
mismatch when that mode is on, then re-raise the control's exception or
return its value. `Option.getD default` renders Python's
`return control_obs.value  # type: ignore` (for observations built by
`observe` the value is present on this path). -/
def finish {α : Type} [Inhabited α] (e : Experiment α) (d : Defaults α)
    (result : Result α) (control_obs : Observation α) :
    List (Event α) × Except (RunError α) α :=
  let _pub : Option Exc := get_publisher e d result
  if e.raise_on_mismatches && result.unexpected_mismatch then
    ([Event.published result], Except.error (RunError.mismatchError result))
  else
    match control_obs.exception with
    | some ex => ([Event.published result], Except.error (RunError.raised ex))
    | none => ([Event.published result], Except.ok (control_obs.value.getD default))

/-- The pre-run hook loop of `Experiment.run`: hooks run in registration
order; a hook's raise is not caught and stops the loop. Returns the trace
of hook invocations and the propagating exception, if any. -/
def run_hooks (α : Type) : List (Option Exc) → Nat → List (Event α) × Option Exc
  | [], _ => ([], none)
  | hook :: rest, i =>
    match hook with
    | some ex => ([Event.hookInvoked i], some ex)
    | none =>
      let r := run_hooks α rest (i + 1)
      (Event.hookInvoked i :: r.1, r.2)

/-- `Experiment.run`. `coin` is the value of `random.random() < 0.5`
(control first when true). Control flow mirrors the source: enablement
check, gate check, hooks, missing-behavior checks, then the try block
(randomized observe calls, `_build_result`, `_finish`) with the cleanup
action in the finally clause — so cleanup runs only for exits of the try
block, and its own exception is caught and discarded (only the
`Event.cleanupInvoked` trace entry remains). -/
def run {α : Type} [Inhabited α] (e : Experiment α) (d : Defaults α)
    (coin : Bool) : List (Event α) × Except (RunError α) α :=
  if !is_enabled e d then
    run_control_only e
  else if gate_blocks e then
    run_control_only e
  else
    match run_hooks α e.before_run_hooks 0 with
    | (hevs, some ex) => (hevs, Except.error (RunError.raised ex))
    | (hevs, none) =>
      match e.control with
      | none => (hevs, Except.error (RunError.valueError "Control behavior not set"))
      | some cb =>
        match e.candidate with
        | none => (hevs, Except.error (RunError.valueError "Candidate behavior not set"))
        | some kb =>
          let body :=
            if coin then
              let c := observe "control" cb 0 0
              let k := observe "candidate" kb 0 0
              (c.1 ++ k.1, c.2, k.2)
            else
              let k := observe "candidate" kb 0 0
              let c := observe "control" cb 0 0
              (k.1 ++ c.1, c.2, k.2)
          let result := build_result e body.2.1 body.2.2
          let fin := finish e d result body.2.1
          let cleanevs : List (Event α) :=
            match e.clean_fn with
            | none => []
            | some _ => [Event.cleanupInvoked]
          (hevs ++ body.1 ++ fin.1 ++ cleanevs, fin.2)

/-- Number of invocations of the behavior labelled `s` in a trace. -/
def invokedCount {α : Type} (t : List (Event α)) (s : String) : Nat :=
  t.countP (fun ev => match ev with
    | Event.invoked n => n == s
    | _ => false)

/-- Number of publishes to the sink in a trace. -/
def publishCount {α : Type} (t : List (Event α)) : Nat :=
  t.countP (fun ev => match ev with
    | Event.published _ => true
    | _ => false)

/-- Number of cleanup-action invocations in a trace. -/
def cleanupCount {α : Type} (t : List (Event α)) : Nat :=
  t.countP (fun ev => match ev with
    | Event.cleanupInvoked => true
    | _ => false)

/-! Helper lemmas about the building blocks. -/

/-- Every event emitted by the hook loop is a hook invocation. -/
theorem run_hooks_events {α : Type} (l : List (Option Exc)) (i : Nat) :
    ∀ ev ∈ (run_hooks α l i).1, ∃ j, ev = Event.hookInvoked j := by
  induction l generalizing i with
  | nil => intro ev h; simp [run_hooks] at h
  | cons hook rest ih =>
    intro ev h
    cases hook with
    | some ex =>
      simp [run_hooks] at h
      exact ⟨i, h⟩
    | none =>
      simp only [run_hooks, List.mem_cons] at h
      rcases h with h | h
      · exact ⟨i, h⟩
      · exact ih (i + 1) ev h

/-- When every hook returns normally, the hook loop propagates nothing. -/
theorem run_hooks_none {α : Type} (l : List (Option Exc)) (i : Nat)
    (h : ∀ hk ∈ l, hk = none) : (run_hooks α l i).2 = none := by
  induction l generalizing i with
  | nil => simp [run_hooks]
  | cons hook rest ih =>
    have hh : hook = none := h hook (List.mem_cons_self hook rest)
    subst hh
    simpa [run_hooks] using ih (i + 1) (fun hk hm => h hk (List.mem_cons_of_mem _ hm))

/-- The trace of `observe` is the single invocation of the behavior. -/
theorem observe_fst {α : Type} (name : String) (b : Outcome α) (dur cpu : Nat) :
    (observe name b dur cpu).1 = [Event.invoked name] := by
  cases b <;> rfl

/-- `finish` publishes exactly once, whatever the outcome. -/
theorem finish_fst {α : Type} [Inhabited α] (e : Experiment α) (d : Defaults α)
    (r : Result α) (o : Observation α) :
    (finish e d r o).1 = [Event.published r] := by
  unfold finish
  split
  · rfl
  · split <;> rfl

/-- Shape of `run` on the executed path: enabled, gated in, all hooks
normal, both behaviors set. The trace is hooks, then the two behavior
invocations in coin order, then the publish, then the cleanup invocation
when a cleanup action is set; the outcome is `_finish`'s. -/
theorem run_main {α : Type} [Inhabited α] (e : Experiment α) (d : Defaults α)
    (coin : Bool) (cb kb : Outcome α)
    (hen : is_enabled e d = true) (hg : gate_blocks e = false)
    (hh : ∀ hk ∈ e.before_run_hooks, hk = none)
    (hc : e.control = some cb) (hk : e.candidate = some kb) :
    run e d coin =
      ((run_hooks α e.before_run_hooks 0).1
        ++ (if coin then [Event.invoked "control", Event.invoked "candidate"]
            else [Event.invoked "candidate", Event.invoked "control"])
        ++ [Event.published (build_result e (observe "control" cb 0 0).2
              (observe "candidate" kb 0 0).2)]
        ++ (match e.clean_fn with
            | none => ([] : List (Event α))
            | some _ => [Event.cleanupInvoked]),
       (finish e d (build_result e (observe "control" cb 0 0).2
          (observe "candidate" kb 0 0).2) (observe "control" cb 0 0).2).2) := by
  rcases hsplit : run_hooks α e.before_run_hooks 0 with ⟨hevs, hexc⟩
  have hx : hexc = none := by
    have h2 := run_hooks_none (α := α) e.before_run_hooks 0 hh
    rwa [hsplit] at h2
  subst hx
  unfold run
  rw [hsplit, hen, hg, hc, hk]
  cases coin <;>
    simp [observe_fst, finish_fst, List.append_assoc]

/-- When disabled or gated out, `run` is exactly the control-only path. -/
theorem run_skip {α : Type} [Inhabited α] (e : Experiment α) (d : Defaults α)
    (coin : Bool) (h : is_enabled e d = false ∨ gate_blocks e = true) :
    run e d coin = run_control_only e := by
  unfold run
  rcases h with h | h
  · simp [h]
  · cases hE : is_enabled e d <;> simp [hE, h]

/-- On every path with hooks returning normally, both behaviors set and
raise-on-mismatches off, `run`'s outcome is the control's: its value
returned, or its exception re-raised verbatim. -/
theorem run_outcome_control {α : Type} [Inhabited α] (e : Experiment α)
    (d : Defaults α) (coin : Bool) (cb : Outcome α)
    (hh : ∀ hk ∈ e.before_run_hooks, hk = none)
    (hc : e.control = some cb)
    (hcand : e.candidate.isSome = true)
    (hrom : e.raise_on_mismatches = false) :
    (run e d coin).2 = (match cb with
      | Outcome.ok v => Except.ok v
      | Outcome.exn ex => Except.error (RunError.raised ex)) := by
  by_cases hskip : is_enabled e d = false ∨ gate_blocks e = true
  · rw [run_skip e d coin hskip]
    unfold run_control_only
    cases cb with
    | ok v => simp [hc]
    | exn ex => simp [hc]
  · have hen : is_enabled e d = true := by
      cases h : is_enabled e d
      · exact absurd (Or.inl h) hskip
      · rfl
    have hg : gate_blocks e = false := by
      cases h : gate_blocks e
      · rfl
      · exact absurd (Or.inr h) hskip
    obtain ⟨kb, hkb⟩ := Option.isSome_iff_exists.mp hcand
    rw [run_main e d coin cb kb hen hg hh hc hkb]
    unfold finish
    rw [hrom]
    cases cb <;> simp [observe]

/-- Characterisation of `_build_result`: the filters decide `ignored` on
the preliminary Result (regardless of `matched`), and the other fields are
the preliminary ones. -/
theorem build_result_spec {α : Type} (e : Experiment α)
    (c k : Observation α) :
    (build_result e c k).ignored
        = e.ignore_filters.any (fun f => f (pre_result e c k)) ∧
      { build_result e c k with ignored := false } = pre_result e c k ∧
      (build_result e c k).matched = (pre_result e c k).matched := by
  simp only [build_result]
  cases h : e.ignore_filters.any (fun f => f (pre_result e c k)) <;>
    exact ⟨rfl, rfl, rfl⟩

/-- A Result never has `matched` and `unexpected_mismatch` both true. -/
theorem matched_not_unexpected {α : Type} (r : Result α) :
    (r.matched && r.unexpected_mismatch) = false := by
  unfold Result.unexpected_mismatch Result.mismatched
  cases r.matched <;> simp

/-- If the hook loop propagated nothing, every hook returned normally. -/
theorem run_hooks_snd_none {α : Type} (l : List (Option Exc)) (i : Nat)
    (h : (run_hooks α l i).2 = none) : ∀ hk ∈ l, hk = none := by
  induction l generalizing i with
  | nil => simp
  | cons hook rest ih =>
    cases hook with
    | some ex => simp [run_hooks] at h
    | none =>
      intro hk hm
      rcases List.mem_cons.mp hm with rfl | hm
      · rfl
      · exact ih (i + 1) (by simpa [run_hooks] using h) hk hm

/-- Every Result published during a run was produced by `_build_result`
on the two captured observations. -/
theorem run_published {α : Type} [Inhabited α] (e : Experiment α)
    (d : Defaults α) (coin : Bool) :
    ∀ r : Result α, Event.published r ∈ (run e d coin).1 →
      ∃ c k, r = build_result e c k := by
  intro r hmem
  by_cases hskip : is_enabled e d = false ∨ gate_blocks e = true
  · rw [run_skip e d coin hskip] at hmem
    unfold run_control_only at hmem
    exfalso
    cases hctl : e.control with
    | none => rw [hctl] at hmem; simp at hmem
    | some cb => rw [hctl] at hmem; cases cb <;> simp at hmem
  · have hen : is_enabled e d = true := by
      cases h : is_enabled e d
      · exact absurd (Or.inl h) hskip
      · rfl
    have hg : gate_blocks e = false := by
      cases h : gate_blocks e
      · rfl
      · exact absurd (Or.inr h) hskip
    rcases hsplit : run_hooks α e.before_run_hooks 0 with ⟨hevs, hexc⟩
    have not_in_hooks : Event.published r ∉ hevs := by
      intro hcontr
      obtain ⟨j, hj⟩ := run_hooks_events e.before_run_hooks 0 _
        (by rw [hsplit]; exact hcontr)
      exact Event.noConfusion hj
    cases hexc with
    | some ex =>
      have htr : (run e d coin).1 = hevs := by
        unfold run
        rw [hsplit, hen, hg]
        rfl
      rw [htr] at hmem
      exact absurd hmem not_in_hooks
    | none =>
      have hall : ∀ hk ∈ e.before_run_hooks, hk = none :=
        run_hooks_snd_none e.before_run_hooks 0 (by rw [hsplit])
      cases hctl : e.control with
      | none =>
        have htr : (run e d coin).1 = hevs := by
          unfold run
          rw [hsplit, hen, hg, hctl]
          rfl
        rw [htr] at hmem
        exact absurd hmem not_in_hooks
      | some cb =>
        cases hcand : e.candidate with
        | none =>
          have htr : (run e d coin).1 = hevs := by
            unfold run
            rw [hsplit, hen, hg, hctl, hcand]
            rfl
          rw [htr] at hmem
          exact absurd hmem not_in_hooks
        | some kb =>
          rw [run_main e d coin cb kb hen hg hall hctl hcand, hsplit] at hmem
          refine ⟨(observe "control" cb 0 0).2, (observe "candidate" kb 0 0).2, ?_⟩
          simp only [List.append_assoc, List.singleton_append, List.cons_append,
            List.mem_append, List.mem_cons, List.mem_singleton] at hmem
          rcases hmem with h | h | h | h
          · exact absurd h not_in_hooks
          · cases coin <;> simp at h
          · simpa using h
          · cases hcl : e.clean_fn <;> rw [hcl] at h <;> simp at h

/-- Count lemma: the hook loop emits no cleanup invocation. -/
theorem cleanupCount_hooks {α : Type} (l : List (Option Exc)) (i : Nat) :
    cleanupCount ((run_hooks α l i).1) = 0 := by
  unfold cleanupCount
  rw [List.countP_eq_zero]
  intro ev hev
  obtain ⟨j, rfl⟩ := run_hooks_events l i ev hev
  simp

/-- Count lemma: the hook loop invokes no behavior. -/
theorem invokedCount_hooks {α : Type} (l : List (Option Exc)) (i : Nat)
    (s : String) : invokedCount ((run_hooks α l i).1) s = 0 := by
  unfold invokedCount
  rw [List.countP_eq_zero]
  intro ev hev
  obtain ⟨j, rfl⟩ := run_hooks_events l i ev hev
  simp

/-- Count lemma: the hook loop publishes nothing. -/
theorem publishCount_hooks {α : Type} (l : List (Option Exc)) (i : Nat) :
    publishCount ((run_hooks α l i).1) = 0 := by
  unfold publishCount
  rw [List.countP_eq_zero]
  intro ev hev
  obtain ⟨j, rfl⟩ := run_hooks_events l i ev hev
  simp

/-! Concrete fixtures for counterexamples and witnesses. -/

/-- Ambient defaults as a fresh process has them: no default publisher,
enabled by default. -/
def d0 : Defaults Nat := { publisher := none, enabled := true }

/-- A plainly configured experiment: both behaviors return 42, equality
comparator, no gate, explicitly enabled, nothing else set. -/
def baseExp : Experiment Nat :=
  { name := "exp", control := some (Outcome.ok 42),
    candidate := some (Outcome.ok 42),
    comparator := fun a b => a == b, publisher := none, run_if_fn := none,
    enabled := some true, ignore_filters := [], before_run_hooks := [],
    clean_fn := none, raise_on_mismatches := false }

/-- An exception raised by a pre-run hook in the fixtures. -/
def hookExc : Exc := { kind := "RuntimeError", msg := "hook failed" }

/-- Matching experiment with an always-true ignore filter. -/
def expC1 : Experiment Nat :=
  { baseExp with ignore_filters := [fun _ => true] }

/-- Experiment whose single pre-run hook raises, with a cleanup action set. -/
def expC2 : Experiment Nat :=
  { baseExp with before_run_hooks := [some hookExc], clean_fn := some none }

/-- Well-behaved experiment with a cleanup action set. -/
def expC2b : Experiment Nat :=
  { baseExp with clean_fn := some none }

/-- Experiment with a (normal) pre-run hook but no control behavior. -/
def expC3 : Experiment Nat :=
  { baseExp with control := none, before_run_hooks := [none] }

/-! Claims. -/

/-- C1, counterexample: the code consults the ignore filters on every
executed run, matched or not. Running `expC1` (control and candidate both
return 42, one always-true ignore filter) publishes a Result with
`matched = true` and `ignored = true`, where the claim says a matched
Result has `ignored = false` regardless of filters. -/
theorem claim_C1_counterexample :
    ((run expC1 d0 true).1.any (fun ev => match ev with
        | Event.published r => r.matched && r.ignored
        | _ => false)) = true := by
  rfl

/-- C1, amended: every Result published by a run of the orchestrator has
`ignored = true` exactly when some registered ignore filter returns true on
the preliminary Result (the same Result with `ignored` reset to false) —
whether or not the observations matched; a matched Result can therefore
carry `ignored = true`, though it is still never an unexpected mismatch. -/
theorem claim_C1_amended {α : Type} [Inhabited α] (e : Experiment α)
    (d : Defaults α) (coin : Bool) (r : Result α)
    (hmem : Event.published r ∈ (run e d coin).1) :
    r.ignored = e.ignore_filters.any (fun f => f { r with ignored := false }) ∧
    (r.matched && r.unexpected_mismatch) = false := by
  obtain ⟨c, k, rfl⟩ := run_published e d coin r hmem
  obtain ⟨h1, h2, _h3⟩ := build_result_spec e c k
  refine ⟨?_, matched_not_unexpected _⟩
  rw [h1, h2]

/-- Witness for the amended C1 at the concrete `expC1` run. -/
theorem claim_C1_witness :
    (build_result expC1 (observe "control" (Outcome.ok 42) 0 0).2
        (observe "candidate" (Outcome.ok 42) 0 0).2).ignored
      = expC1.ignore_filters.any (fun f => f
          { build_result expC1 (observe "control" (Outcome.ok 42) 0 0).2
              (observe "candidate" (Outcome.ok 42) 0 0).2 with ignored := false }) :=
  (claim_C1_amended expC1 d0 true _ (by decide)).1

/-- C2, counterexample: the hooks run outside the try/finally, so when a
pre-run hook raises, the hook's exception propagates and the configured
cleanup action is never invoked — the claim says cleanup runs on the hook
failure exit path too. -/
theorem claim_C2_counterexample :
    expC2.clean_fn.isSome = true ∧
    cleanupCount (run expC2 d0 true).1 = 0 ∧
    (run expC2 d0 true).2 = Except.error (RunError.raised hookExc) :=
  ⟨rfl, rfl, rfl⟩

/-- C2, amended: with a cleanup action set, cleanup is invoked exactly once
on every exit of the execution phase — success, mismatch failure, control
failure — and any exception the cleanup action raises is discarded (the
run's trace and outcome do not depend on it); but when a pre-run hook
raises, the run exits before the try/finally and cleanup is skipped. -/
theorem claim_C2_amended {α : Type} [Inhabited α] (e : Experiment α)
    (d : Defaults α) (coin : Bool) (cb kb : Outcome α) (cexc : Option Exc)
    (hen : is_enabled e d = true) (hg : gate_blocks e = false)
    (hc : e.control = some cb) (hk : e.candidate = some kb)
    (hcl : e.clean_fn = some cexc) :
    ((∀ hk2 ∈ e.before_run_hooks, hk2 = none) →
        cleanupCount (run e d coin).1 = 1) ∧
    (∀ ex, (run_hooks α e.before_run_hooks 0).2 = some ex →
        cleanupCount (run e d coin).1 = 0) ∧
    (∀ x y, run { e with clean_fn := some x } d coin
        = run { e with clean_fn := some y } d coin) := by
  refine ⟨?_, ?_, ?_⟩
  · intro hh
    rw [run_main e d coin cb kb hen hg hh hc hk, hcl]
    simp only [cleanupCount, List.countP_append]
    have h0 : cleanupCount ((run_hooks α e.before_run_hooks 0).1) = 0 :=
      cleanupCount_hooks e.before_run_hooks 0
    unfold cleanupCount at h0
    rw [h0]
    cases coin <;> rfl
  · intro ex hfail
    rcases hsplit : run_hooks α e.before_run_hooks 0 with ⟨hevs, hexc⟩
    rw [hsplit] at hfail
    simp at hfail
    subst hfail
    have htr : (run e d coin).1 = hevs := by
      unfold run
      rw [hsplit, hen, hg]
      rfl
    rw [htr]
    have h0 := cleanupCount_hooks (α := α) e.before_run_hooks 0
    rwa [hsplit] at h0
  · intro x y
    rfl

/-- Witness for the amended C2 at the concrete `expC2b` run. -/
theorem claim_C2_witness :
    cleanupCount (run expC2b d0 true).1 = 1 :=
  (claim_C2_amended expC2b d0 true (Outcome.ok 42) (Outcome.ok 42) none
    rfl rfl rfl rfl rfl).1 (by decide)

/-- C3, counterexample: the code runs the pre-run hooks before the
missing-behavior check, so on `expC3` (no control behavior, one hook) the
hook is invoked and only then the configuration failure is raised — the
claim says no pre-run hook is invoked before that failure. -/
theorem claim_C3_counterexample :
    (run expC3 d0 true).1 = [Event.hookInvoked 0] ∧
    (run expC3 d0 true).2
      = Except.error (RunError.valueError "Control behavior not set") :=
  ⟨rfl, rfl⟩

/-- C3, amended: when the experiment is enabled and gated in but the
control or candidate behavior is unset, `run` raises a configuration
failure before any behavior execution — neither behavior is invoked and
nothing is published — but only after all pre-run hooks have run (the
trace is exactly the hook loop's trace). -/
theorem claim_C3_amended {α : Type} [Inhabited α] (e : Experiment α)
    (d : Defaults α) (coin : Bool)
    (hen : is_enabled e d = true) (hg : gate_blocks e = false)
    (hh : ∀ hk2 ∈ e.before_run_hooks, hk2 = none)
    (hmiss : e.control = none ∨ e.candidate = none) :
    (∃ msg, (run e d coin).2 = Except.error (RunError.valueError msg)) ∧
    (run e d coin).1 = (run_hooks α e.before_run_hooks 0).1 ∧
    (∀ s, Event.invoked s ∉ (run e d coin).1) ∧
    (∀ r, Event.published r ∉ (run e d coin).1) := by
  rcases hsplit : run_hooks α e.before_run_hooks 0 with ⟨hevs, hexc⟩
  have hx : hexc = none := by
    have h2 := run_hooks_none (α := α) e.before_run_hooks 0 hh
    rwa [hsplit] at h2
  subst hx
  have hrun : run e d coin = (hevs,
      Except.error (RunError.valueError (match e.control with
        | none => "Control behavior not set"
        | some _ => "Candidate behavior not set"))) := by
    unfold run
    rw [hsplit, hen, hg]
    rcases hmiss with hm | hm
    · rw [hm]
      rfl
    · rw [hm]
      cases hctl : e.control <;> rfl
  rw [hrun]
  refine ⟨⟨_, rfl⟩, ?_, ?_, ?_⟩
  · rfl
  · intro s hcontr
    obtain ⟨j, hj⟩ := run_hooks_events e.before_run_hooks 0 _
      (by rw [hsplit]; exact hcontr)
    exact Event.noConfusion hj
  · intro r hcontr
    obtain ⟨j, hj⟩ := run_hooks_events e.before_run_hooks 0 _
      (by rw [hsplit]; exact hcontr)
    exact Event.noConfusion hj

/-- Witness for the amended C3 at the concrete `expC3` run. -/
theorem claim_C3_witness :
    (∃ msg, (run expC3 d0 true).2 = Except.error (RunError.valueError msg)) ∧
    Event.invoked "control" ∉ (run expC3 d0 true).1 := by
  have h := claim_C3_amended expC3 d0 true rfl rfl (by decide) (Or.inl rfl)
  exact ⟨h.1, h.2.2.1 "control"⟩

/-- C4: the observation capture routine invokes the behavior exactly once
(its trace is the single invocation event) and never raises (it is a total
function into an Observation); on normal return the Observation carries the
returned value and no failure, and on a raise of any kind — foundational
ones included, as `observe` catches BaseException — it carries that failure
and no value. -/
theorem claim_C4 {α : Type} (name : String) (b : Outcome α) (dur cpu : Nat) :
    (observe name b dur cpu).1 = [Event.invoked name] ∧
    (observe name b dur cpu).2.value
      = (match b with | Outcome.ok v => some v | Outcome.exn _ => none) ∧
    (observe name b dur cpu).2.exception
      = (match b with | Outcome.ok _ => none | Outcome.exn ex => some ex) := by
  cases b <;> exact ⟨rfl, rfl, rfl⟩

/-- C5: every Observation produced by the capture routine populates exactly
one of value/failure — the value is present iff no failure occurred, and
the failure is present iff the behavior raised. -/
theorem claim_C5 {α : Type} (name : String) (b : Outcome α) (dur cpu : Nat) :
    ((observe name b dur cpu).2.value.isSome
        = !(observe name b dur cpu).2.exception.isSome) ∧
    ((observe name b dur cpu).2.raised
        = (match b with | Outcome.ok _ => false | Outcome.exn _ => true)) := by
  cases b <;> exact ⟨rfl, rfl⟩

/-- C6: with hooks returning normally and raise-on-mismatches off, if the
control succeeds with value V then `run` returns V regardless of the
candidate's outcome; if the control raises E, `run` propagates exactly that
failure (re-raised verbatim), again regardless of the candidate — so the
candidate's failure is never surfaced. -/
theorem claim_C6 {α : Type} [Inhabited α] (e : Experiment α) (d : Defaults α)
    (coin : Bool) (cb kb : Outcome α)
    (hh : ∀ hk2 ∈ e.before_run_hooks, hk2 = none)
    (hc : e.control = some cb) (hk : e.candidate = some kb)
    (hrom : e.raise_on_mismatches = false) :
    (∀ v, cb = Outcome.ok v → (run e d coin).2 = Except.ok v) ∧
    (∀ ex, cb = Outcome.exn ex →
        (run e d coin).2 = Except.error (RunError.raised ex)) := by
  have h := run_outcome_control e d coin cb hh hc (by rw [hk]; rfl) hrom
  constructor
  · intro v hv
    subst hv
    exact h
  · intro ex hex
    subst hex
    exact h

/-- An exception raised by the candidate behavior in the fixtures. -/
def candExc : Exc := { kind := "ValueError", msg := "candidate failed" }

/-- Experiment whose candidate raises while the control succeeds. -/
def expC6 : Experiment Nat :=
  { baseExp with candidate := some (Outcome.exn candExc) }

/-- Witness for C6: the candidate raising does not stop `run` from
returning the control's 42. -/
theorem claim_C6_witness :
    (run expC6 d0 true).2 = Except.ok 42 :=
  (claim_C6 expC6 d0 true (Outcome.ok 42) (Outcome.exn candExc)
    (by decide) rfl rfl rfl).1 42 rfl

/-- C7: when the gate predicate returns false or the experiment is
disabled, `run` takes the control-only path: the candidate is never
invoked, nothing is published (so no comparison happened and no Result was
built), and the control is called directly, its value or failure going
straight to the caller. -/
theorem claim_C7 {α : Type} [Inhabited α] (e : Experiment α) (d : Defaults α)
    (coin : Bool) (cb : Outcome α)
    (hskip : is_enabled e d = false ∨ gate_blocks e = true)
    (hc : e.control = some cb) :
    run e d coin = run_control_only e ∧
    (run e d coin).1 = [Event.invoked "control"] ∧
    invokedCount (run e d coin).1 "candidate" = 0 ∧
    publishCount (run e d coin).1 = 0 ∧
    (run e d coin).2 = (match cb with
      | Outcome.ok v => Except.ok v
      | Outcome.exn ex => Except.error (RunError.raised ex)) := by
  have h1 := run_skip e d coin hskip
  have htr : (run e d coin).1 = [Event.invoked "control"] := by
    rw [h1]
    unfold run_control_only
    cases cb with
    | ok v => simp [hc]
    | exn ex => simp [hc]
  refine ⟨h1, htr, ?_, ?_, ?_⟩
  · rw [htr]; rfl
  · rw [htr]; rfl
  · rw [h1]
    unfold run_control_only
    cases cb with
    | ok v => simp [hc]
    | exn ex => simp [hc]

/-- Gated-out experiment: the run_if predicate returns false. -/
def expC7 : Experiment Nat :=
  { baseExp with run_if_fn := some false }

/-- Witness for C7 at the gated-out `expC7` run. -/
theorem claim_C7_witness :
    run expC7 d0 true = run_control_only expC7 ∧
    invokedCount (run expC7 d0 true).1 "candidate" = 0 ∧
    publishCount (run expC7 d0 true).1 = 0 := by
  have h := claim_C7 expC7 d0 true (Outcome.ok 42) (Or.inr rfl) rfl
  exact ⟨h.1, h.2.2.1, h.2.2.2.1⟩

/-- C8: the percentage-difference comparator accepts two zeros, rejects
exactly one zero, and otherwise accepts exactly the pairs with relative
difference (against the control) at most the threshold, boundary included. -/
theorem claim_C8 (t c k : ℚ) :
    (c = 0 → k = 0 → percent_difference_comparator t c k = true) ∧
    (c = 0 → k ≠ 0 → percent_difference_comparator t c k = false) ∧
    (c ≠ 0 → k = 0 → percent_difference_comparator t c k = false) ∧
    (c ≠ 0 → k ≠ 0 →
      (percent_difference_comparator t c k = true ↔ |c - k| / |c| ≤ t)) := by
  unfold percent_difference_comparator
  refine ⟨?_, ?_, ?_, ?_⟩
  · intro h1 h2; simp [h1, h2]
  · intro h1 h2; simp [h1, h2]
  · intro h1 h2; simp [h1, h2]
  · intro h1 h2; simp [h1, h2]

/-- Witness for C8 at threshold 0.1: (100, 110) sits on the boundary and is
accepted; (100, 120) is rejected. -/
theorem claim_C8_witness :
    percent_difference_comparator (1/10) 100 110 = true ∧
    percent_difference_comparator (1/10) 100 120 = false := by
  have h110 := claim_C8 (1/10) 100 110
  have h120 := claim_C8 (1/10) 100 120
  have e100 : |(100 : ℚ)| = 100 := abs_of_nonneg (by norm_num)
  have e110 : |(100 : ℚ) - 110| = 10 := by
    rw [show (100 : ℚ) - 110 = -10 by norm_num, abs_neg]
    exact abs_of_nonneg (by norm_num)
  have e120 : |(100 : ℚ) - 120| = 20 := by
    rw [show (100 : ℚ) - 120 = -20 by norm_num, abs_neg]
    exact abs_of_nonneg (by norm_num)
  constructor
  · refine (h110.2.2.2 (by norm_num) (by norm_num)).mpr ?_
    rw [e110, e100]
    norm_num
  · have hne : ¬(percent_difference_comparator (1/10) 100 120 = true) := by
      intro hcontr
      have hle := (h120.2.2.2 (by norm_num) (by norm_num)).mp hcontr
      rw [e120, e100] at hle
      norm_num at hle
    simpa using hne

/-- C9: on an executed run with raise-on-unexpected-mismatch enabled, if
the built Result is an unexpected (non-suppressed) mismatch then `run`
raises the mismatch failure carrying that full Result, and the Result was
still submitted to the sink (the publish event is in the trace — the raise
comes only after the publish step); if the Result is not an unexpected
mismatch (a suppressed mismatch or a match), no mismatch failure is
raised. -/
theorem claim_C9 {α : Type} [Inhabited α] (e : Experiment α) (d : Defaults α)
    (coin : Bool) (cb kb : Outcome α)
    (hen : is_enabled e d = true) (hg : gate_blocks e = false)
    (hh : ∀ hk2 ∈ e.before_run_hooks, hk2 = none)
    (hc : e.control = some cb) (hk : e.candidate = some kb)
    (hrom : e.raise_on_mismatches = true) :
    ((build_result e (observe "control" cb 0 0).2
        (observe "candidate" kb 0 0).2).unexpected_mismatch = true →
      (run e d coin).2 = Except.error (RunError.mismatchError
        (build_result e (observe "control" cb 0 0).2
          (observe "candidate" kb 0 0).2)) ∧
      Event.published (build_result e (observe "control" cb 0 0).2
        (observe "candidate" kb 0 0).2) ∈ (run e d coin).1) ∧
    ((build_result e (observe "control" cb 0 0).2
        (observe "candidate" kb 0 0).2).unexpected_mismatch = false →
      ∀ x, (run e d coin).2 ≠ Except.error (RunError.mismatchError x)) := by
  rw [run_main e d coin cb kb hen hg hh hc hk]
  constructor
  · intro hu
    constructor
    · show (finish e d _ _).2 = _
      unfold finish
      rw [hrom, hu]
      rfl
    · simp [List.mem_append]
  · intro hu x
    show (finish e d _ _).2 ≠ _
    unfold finish
    rw [hrom, hu]
    cases cb <;> simp [observe]

/-- Mismatching experiment in raise-on-mismatches mode: control returns 42,
candidate returns 99. -/
def expC9 : Experiment Nat :=
  { baseExp with candidate := some (Outcome.ok 99), raise_on_mismatches := true }

/-- Witness for C9 at the concrete `expC9` run: the mismatch failure is
raised, carrying the published Result. -/
theorem claim_C9_witness :
    (run expC9 d0 true).2 = Except.error (RunError.mismatchError
      (build_result expC9 (observe "control" (Outcome.ok 42) 0 0).2
        (observe "candidate" (Outcome.ok 99) 0 0).2)) ∧
    Event.published (build_result expC9 (observe "control" (Outcome.ok 42) 0 0).2
      (observe "candidate" (Outcome.ok 99) 0 0).2) ∈ (run expC9 d0 true).1 :=
  (claim_C9 expC9 d0 true (Outcome.ok 42) (Outcome.ok 99)
    rfl rfl (by decide) rfl rfl rfl).1 rfl

/-- C10: the sink never affects the caller — installing any publisher
(raising or not) leaves the whole run (trace and outcome) unchanged, and in
particular with a raising publisher `run` still returns the control's value
or re-raises the control's failure. -/
theorem claim_C10 {α : Type} [Inhabited α] (e : Experiment α) (d : Defaults α)
    (coin : Bool) (cb kb : Outcome α) (p : Result α → Option Exc)
    (hh : ∀ hk2 ∈ e.before_run_hooks, hk2 = none)
    (hc : e.control = some cb) (hk : e.candidate = some kb)
    (hrom : e.raise_on_mismatches = false) :
    run { e with publisher := some p } d coin = run e d coin ∧
    (∀ v, cb = Outcome.ok v →
        (run { e with publisher := some p } d coin).2 = Except.ok v) ∧
    (∀ ex, cb = Outcome.exn ex →
        (run { e with publisher := some p } d coin).2
          = Except.error (RunError.raised ex)) := by
  have h := run_outcome_control { e with publisher := some p } d coin cb hh hc
    (by show e.candidate.isSome = true; rw [hk]; rfl) hrom
  refine ⟨rfl, ?_, ?_⟩
  · intro v hv
    subst hv
    exact h
  · intro ex hex
    subst hex
    exact h

/-- A publisher whose publish operation always raises. -/
def badPub : Result Nat → Option Exc :=
  fun _ => some { kind := "RuntimeError", msg := "publish failed" }

/-- Witness for C10: with the always-raising publisher installed, `run`
still returns the control's 42. -/
theorem claim_C10_witness :
    (run { baseExp with publisher := some badPub } d0 true).2 = Except.ok 42 :=
  (claim_C10 baseExp d0 true (Outcome.ok 42) (Outcome.ok 42) badPub
    (by decide) rfl rfl rfl).2.1 42 rfl

end Scientist
